import Mathlib

/-!
Verification of the directcryptopay sdk against its specification.

The development embeds the parts of the repository the claims are about:

* the webhook signature verifier (spec section 4.4; the implementation is
  shipped only as a build artifact, so the verifier is modelled from the
  spec, with HMAC-SHA256 abstracted as a keyed-hash parameter);
* the balance aggregator `fetchTokenBalances` (src/src/core/logic.ts);
* the amount conversion `parseUnits` (viem, called from src/src/ui/Modal.tsx);
* the payment orchestration steps of the `Modal` component
  (src/src/ui/Modal.tsx), given as explicit state-transition functions
  parameterised by the outcome of each awaited network or wallet call.

Machine integers of the source (JavaScript bigint balances, unix-second
timestamps) are modelled as `Nat`; fallible calls are modelled with
`Option` and `Except`.
-/

namespace DCP

/-! ## Decimal digit strings

JavaScript `BigInt(string)` on a string of decimal digits evaluates the
digits in base 10; `digitsToNat` is that evaluation on a list of digit
characters. -/

/-- Value of a list of decimal digit characters, most significant first. -/
def digitsToNat (l : List Char) : Nat :=
  l.foldl (fun n c => n * 10 + (c.toNat - 48)) 0

/-- Character class of decimal digits. -/
def isDigitChar (c : Char) : Bool :=
  ('0' ≤ c && c ≤ '9')

/-! ## Webhook signature verification

Modelled from the spec: the `verifyWebhookSignature` implementation is not
under src/ (the repository ships only its test driver and the compiled
dist bundle), so the definitions below follow spec section 4.4 and the
header format of section 6 word for word.  HMAC-SHA256 is an external
primitive of the Web Crypto API and is abstracted as the parameter `mac`,
mapping a secret and a message to the lowercase hex encoding of the tag. -/

/-- Splits a character list at every occurrence of the separator `c`.
Mirrors the comma and equals splitting of the header parser. -/
def splitOnChar (c : Char) : List Char → List (List Char)
  | [] => [[]]
  | x :: xs =>
    let r := splitOnChar c xs
    if x = c then [] :: r
    else
      match r with
      | [] => [[x]]
      | y :: ys => (x :: y) :: ys

/-- Parses one comma-separated part as a single `key=value` pair. -/
def parseFieldPair (part : List Char) : Option (List Char × List Char) :=
  match splitOnChar '=' part with
  | [k, v] => some (k, v)
  | _ => none

/-- All well-formed `key=value` pairs of a signature header. -/
def fieldsOf (hdr : List Char) : List (List Char × List Char) :=
  (splitOnChar ',' hdr).filterMap parseFieldPair

/-- First value bound to `key` among the parsed pairs. -/
def lookupField (key : List Char) : List (List Char × List Char) → Option (List Char)
  | [] => none
  | (k, v) :: rest => if k = key then some v else lookupField key rest

/-- Character class of lowercase hexadecimal digits. -/
def isLowerHexChar (c : Char) : Bool :=
  isDigitChar c || ('a' ≤ c && c ≤ 'f')

/-- Parsed signature header: the raw timestamp digits, their numeric
value, and the `v1` hex signature (spec data model WebhookEnvelope). -/
structure WebhookEnvelope where
  tRaw : List Char
  t : Nat
  v1 : List Char
deriving DecidableEq, Repr

/-- Parses a signature header `t=<unix-seconds>,v1=<hex>`.  A missing,
empty, or non-conforming `t` or `v1` field yields `none`. -/
def parseSignatureHeader (hdr : List Char) : Option WebhookEnvelope :=
  match lookupField ['t'] (fieldsOf hdr), lookupField ['v', '1'] (fieldsOf hdr) with
  | some ts, some v1 =>
    if (!ts.isEmpty && ts.all isDigitChar) && (!v1.isEmpty && v1.all isLowerHexChar) then
      some ⟨ts, digitsToNat ts, v1⟩
    else none
  | _, _ => none

/-- Comparison of the expected and presented signatures.  The source
requirement is a constant-time comparison; timing is outside a shallow
embedding, so the model keeps its functional content: a length check and
a full fold over all byte pairs with no data-dependent early exit. -/
def constantTimeEq (a b : List Char) : Bool :=
  (a.length == b.length) && (a.zip b).foldl (fun acc p => acc && (p.1 == p.2)) true

/-- Absolute clock skew between verification time and the header time,
both in unix seconds. -/
def clockSkew (now t : Nat) : Nat :=
  if t ≤ now then now - t else t - now

/-- Modelled from the spec: `verify(rawBody, signatureHeader, secret,
toleranceSeconds=300) → boolean` of spec section 4.4.  The expected tag is
`mac` over the exact byte sequence `"{t}.{rawBody}"` keyed by the secret,
where `{t}` is the raw timestamp substring of the header; the result
demands both the signature match and the replay window, and every failure
mode is a `false` result of this total function, never an exception. -/
def verifyWebhookSignature (mac : String → String → String)
    (rawBody signatureHeader secret : String)
    (toleranceSec : Nat) (now : Nat) : Bool :=
  match parseSignatureHeader signatureHeader.toList with
  | none => false
  | some env =>
    let expected := mac secret (String.mk env.tRaw ++ "." ++ rawBody)
    let sigOk := constantTimeEq expected.toList env.v1
    let timeOk := clockSkew now env.t ≤ toleranceSec
    sigOk && timeOk

/-! ## Token balances (src/src/types.ts and src/src/core/logic.ts) -/

/-- Token descriptor of `src/src/types.ts` (`TokenConfig`): `address` is
`string | null`, null for the native asset. -/
structure TokenConfig where
  symbol : String
  name : String
  address : Option String
  decimals : Nat
  isNative : Bool
deriving DecidableEq, Repr

/-- Resolved token of `src/src/types.ts` (`TokenWithBalance`).  The source
carries the balance as the decimal string of a JavaScript bigint and
re-reads it with `BigInt` when comparing; the model carries the bigint
value itself as a `Nat`. -/
structure TokenWithBalance where
  symbol : String
  name : String
  address : Option String
  decimals : Nat
  isNative : Bool
  balance : Nat
  balanceFormatted : String
  hasBalance : Bool
deriving DecidableEq, Repr

/-- Decimal digit characters of a natural number, most significant first. -/
def natToDigits (n : Nat) : List Char :=
  (Nat.toDigits 10 n)

/-- Drops trailing zero characters. -/
def trimTrailingZeros (l : List Char) : List Char :=
  ((l.reverse.dropWhile (fun c => c = '0')).reverse)

/-- Display formatting of viem `formatUnits`: the decimal string of the
integer with a point inserted `decimals` places from the right and
trailing fractional zeros removed. -/
def formatUnits (value : Nat) (decimals : Nat) : String :=
  let ds := natToDigits value
  let padded := List.replicate (decimals - ds.length) '0' ++ ds
  let intPart := padded.take (padded.length - decimals)
  let fracPart := trimTrailingZeros (padded.drop (padded.length - decimals))
  String.mk ((if intPart.isEmpty then ['0'] else intPart) ++
    (if fracPart.isEmpty then [] else '.' :: fracPart))

/-- One arm of the `Promise.all` fan-out of `fetchTokenBalances`
(src/src/core/logic.ts lines 13 to 51).  The wallet environment `env`
returns the resolved bigint balance, or `none` when the balance read
rejects; the rejecting arm is the catch branch, which logs and reports a
zero balance instead of failing. -/
def resolveToken (env : TokenConfig → Option Nat) (t : TokenConfig) : TokenWithBalance :=
  match env t with
  | some bal =>
    { symbol := t.symbol, name := t.name, address := t.address,
      decimals := t.decimals, isNative := t.isNative,
      balance := bal, balanceFormatted := formatUnits bal t.decimals,
      hasBalance := decide (0 < bal) }
  | none =>
    { symbol := t.symbol, name := t.name, address := t.address,
      decimals := t.decimals, isNative := t.isNative,
      balance := 0, balanceFormatted := "0", hasBalance := false }

/-- The sort comparator of `fetchTokenBalances` (src/src/core/logic.ts
lines 54 to 61), value for value.  Note the third branch returns `-1`
for equal balances instead of `0`. -/
def compareTokens (a b : TokenWithBalance) : Int :=
  if a.hasBalance && !b.hasBalance then -1
  else if !a.hasBalance && b.hasBalance then 1
  else if a.hasBalance && b.hasBalance then
    (if b.balance > a.balance then 1 else -1)
  else 0

/-- Order induced by the comparator: `a` may precede `b` exactly when the
comparator does not demand the opposite order. -/
def tokenLe (a b : TokenWithBalance) : Prop :=
  compareTokens a b ≤ 0

instance : DecidableRel tokenLe := fun a b => by
  unfold tokenLe; infer_instance

instance : IsTotal TokenWithBalance tokenLe := by
  constructor
  intro a b
  simp only [tokenLe, compareTokens]
  rcases ha : a.hasBalance <;> rcases hb : b.hasBalance <;> simp <;> omega

instance : IsTrans TokenWithBalance tokenLe := by
  constructor
  intro a b c
  simp only [tokenLe, compareTokens]
  rcases ha : a.hasBalance <;> rcases hb : b.hasBalance <;>
    rcases hc : c.hasBalance <;> simp <;> omega

/-- The balance aggregator `fetchTokenBalances` (src/src/core/logic.ts):
fan-out resolution of every token followed by `Array.prototype.sort` with
`compareTokens`.  The sort is modelled as a stable comparator sort
(`List.insertionSort` with `tokenLe`); note that because the comparator
returns `-1` on equal balances the ECMAScript standard leaves the order
of such ties implementation-defined, and engines differ (see the V8
model below). -/
def fetchTokenBalances (env : TokenConfig → Option Nat)
    (tokens : List TokenConfig) : List TokenWithBalance :=
  List.insertionSort tokenLe (tokens.map (resolveToken env))

/-- Run detection pass of V8 TimSort: on a two-element array the whole
sort reduces to `countRunAndMakeAscending`, which treats the pair as a
descending run and reverses it exactly when the comparator applied to
(second, first) is negative. -/
def v8SortPair (cmp : α → α → Int) (a b : α) : List α :=
  if cmp b a < 0 then [b, a] else [a, b]

/-- The balance aggregator on a two-token list as executed by the V8
engine (node, chrome): resolution as above, then the V8 two-element sort. -/
def fetchTokenBalancesV8Pair (env : TokenConfig → Option Nat)
    (t1 t2 : TokenConfig) : List TokenWithBalance :=
  v8SortPair compareTokens (resolveToken env t1) (resolveToken env t2)

/-! ## Amount conversion (viem `parseUnits`, called at src/src/ui/Modal.tsx line 122)

The source converts the intent amount with
`parseUnits(String(intent.amount), selectedToken.decimals)`, a
string-based scaling with no floating-point multiply.  `parseUnits` is a
viem utility; it splits the string at the decimal point, trims trailing
fractional zeros, pads the fraction to `decimals` digits and reads the
concatenation with `BigInt`.  The model covers non-negative inputs on the
exact path (fraction no longer than `decimals` after trimming); the
overflowing-fraction path of viem rounds through floating point and is
mapped to `none`, as is any input on which `BigInt` would throw. -/

/-- JavaScript `BigInt(string)` on the strings the conversion produces:
a possibly empty digit string evaluates in base 10, anything else throws. -/
def jsBigIntOfDigits (l : List Char) : Option Nat :=
  if l.all isDigitChar then some (digitsToNat l) else none

/-- Scaling of an integer part and a fractional part to base units. -/
def parseUnitsCore (i f : List Char) (decimals : Nat) : Option Nat :=
  let ft := trimTrailingZeros f
  if decimals < ft.length then none
  else jsBigIntOfDigits (i ++ ft ++ List.replicate (decimals - ft.length) '0')

/-- Exact base-unit conversion of a decimal amount string. -/
def parseUnits (value : String) (decimals : Nat) : Option Nat :=
  match splitOnChar '.' value.toList with
  | [i] => parseUnitsCore i [] decimals
  | [i, f] => parseUnitsCore i f decimals
  | _ => none

/-! ## Payment orchestration (src/src/ui/Modal.tsx)

The `Modal` component is the orchestrator state machine.  Each async
handler of the source is embedded as a step function on the component
state, parameterised by the outcome of every awaited call (`Except`
carries the message of a rejected promise).  Every step is a total
function: a rejection inside a handler never escapes it, mirroring the
try and catch structure of the source.  Callbacks fired during a step are
collected in order in the returned list. -/

/-- The `PaymentState` union of src/src/ui/Modal.tsx lines 15 to 24. -/
inductive PaymentState
  | FETCHING_TOOL
  | CONNECT_WALLET
  | FETCHING_BALANCES
  | SELECT_TOKEN
  | REVIEW
  | PROCESSING
  | POLLING
  | SUCCESS
  | ERROR
deriving DecidableEq, Repr

/-- Tool metadata (`ToolData` of src/src/types.ts), fields the
orchestrator reads. -/
structure ToolData where
  id : String
  amount : String
  currency_id : String
  chain_id : Nat
  recipient_address : String
  available_tokens : List TokenConfig
deriving DecidableEq, Repr

/-- Intent response (`BackendIntentResponse` of src/src/types.ts), fields
the orchestrator reads. -/
structure BackendIntentResponse where
  id : String
  amount : String
  currency : String
  chainId : Nat
  tokenAddress : String
  merchantAddress : String
  expiresAt : String
  signature : String
  nonce : String
deriving DecidableEq, Repr

/-- The mutable component state of `Modal` (the useState hooks, lines 27
to 32). -/
structure ModalState where
  state : PaymentState
  toolData : Option ToolData
  tokens : List TokenWithBalance
  selectedToken : Option TokenWithBalance
  error : Option String
  txHash : Option String
deriving DecidableEq, Repr

/-- Callback invocations observable through `PaymentCallbacks`. -/
inductive CallbackEvent
  | onOpen
  | onError (msg : String)
  | onTxSubmitted (hash : String)
  | onSuccess
  | onClose
deriving DecidableEq, Repr

/-- Network or wallet requests issued by a handler, observable effects
for the retry analysis. -/
inductive Request
  | fetchTool (toolId : String)
deriving DecidableEq, Repr

/-- The transaction request handed to `walletManager.sendTransaction`:
either a native transfer carrying a value and no data field (lines 126 to
130), or a token-contract call carrying encoded data and no value field
(lines 133 to 143).  `TransferCall` stands for
`encodeFunctionData(erc20Abi, transfer, [recipient, amount])`, determined
by its two arguments. -/
structure TransferCall where
  recipient : String
  amount : Nat
deriving DecidableEq, Repr

structure TxNative where
  -- the source field is named `to`, a reserved token here
  toAddr : String
  value : Nat
  chainId : Nat
deriving DecidableEq, Repr

structure TxCall where
  -- the source field is named `to`, a reserved token here
  toAddr : String
  data : TransferCall
  chainId : Nat
deriving DecidableEq, Repr

inductive SentTx
  | native (tx : TxNative)
  | erc20 (tx : TxCall)
deriving DecidableEq, Repr

/-- The `loadTool` handler (lines 44 to 61): fires onOpen, fetches the
tool, then either enters balance checking (wallet connected) or waits for
connection; a rejected fetch lands in ERROR and fires onError. -/
def loadToolStep (s : ModalState) (connected : Bool)
    (fetchRes : Except String ToolData) : ModalState × List CallbackEvent :=
  match fetchRes with
  | Except.error msg =>
    ({ s with state := PaymentState.ERROR, error := some msg },
     [CallbackEvent.onOpen, CallbackEvent.onError msg])
  | Except.ok data =>
    if connected then
      ({ s with toolData := some data, state := PaymentState.FETCHING_BALANCES },
       [CallbackEvent.onOpen])
    else
      ({ s with toolData := some data, state := PaymentState.CONNECT_WALLET },
       [CallbackEvent.onOpen])

/-- The auto-selection of `checkBalances` (line 100):
`balances.find(t => t.hasBalance) || balances[0]`. -/
def selectDefault (balances : List TokenWithBalance) : Option TokenWithBalance :=
  match balances.find? (fun t => t.hasBalance) with
  | some t => some t
  | none => balances.head?

/-- The `checkBalances` handler (lines 87 to 109): reads the account
(`accountRes` carries its chain id), switches chain when it differs from
the tool chain, aggregates balances, auto-selects
`balances.find(t => t.hasBalance) || balances[0]` and enters
SELECT_TOKEN; any rejection inside the handler lands in ERROR and fires
onError. -/
def checkBalancesStep (s : ModalState) (data : ToolData)
    (accountRes : Except String Nat) (switchRes : Except String Unit)
    (env : TokenConfig → Option Nat) : ModalState × List CallbackEvent :=
  match accountRes with
  | Except.error msg =>
    ({ s with state := PaymentState.ERROR, error := some msg },
     [CallbackEvent.onError msg])
  | Except.ok accountChainId =>
    match (if accountChainId ≠ data.chain_id then switchRes else Except.ok ()) with
    | Except.error msg =>
      ({ s with state := PaymentState.ERROR, error := some msg },
       [CallbackEvent.onError msg])
    | Except.ok _ =>
      let balances := fetchTokenBalances env data.available_tokens
      ({ s with tokens := balances, selectedToken := selectDefault balances,
                state := PaymentState.SELECT_TOKEN }, [])

/-- The `handlePay` handler (lines 111 to 184) up to entering the polling
loop: creates the intent, converts the amount, builds and broadcasts the
transaction, fires onTxSubmitted, submits the payment; the first
rejection aborts the remaining calls, lands in ERROR and fires onError.
The third component of the result is the transaction handed to the
wallet, when one was built. -/
def handlePayStep (s : ModalState)
    (intentRes : Except String BackendIntentResponse)
    (sendRes : SentTx → Except String String)
    (submitRes : Except String String) :
    ModalState × List CallbackEvent × Option SentTx :=
  match s.toolData, s.selectedToken with
  | some toolData, some selectedToken =>
    match intentRes with
    | Except.error msg =>
      ({ s with state := PaymentState.ERROR, error := some msg },
       [CallbackEvent.onError msg], none)
    | Except.ok intent =>
      match parseUnits intent.amount selectedToken.decimals with
      | none =>
        -- the conversion error thrown by parseUnits reaches the same catch
        ({ s with state := PaymentState.ERROR, error := some ("invalid amount") },
         [CallbackEvent.onError ("invalid amount")], none)
      | some wei =>
        let tx : SentTx :=
          if selectedToken.isNative then
            SentTx.native ⟨intent.merchantAddress, wei, toolData.chain_id⟩
          else
            SentTx.erc20 ⟨intent.tokenAddress, ⟨intent.merchantAddress, wei⟩,
                          toolData.chain_id⟩
        match sendRes tx with
        | Except.error msg =>
          ({ s with state := PaymentState.ERROR, error := some msg },
           [CallbackEvent.onError msg], some tx)
        | Except.ok hash =>
          match submitRes with
          | Except.error msg =>
            ({ s with txHash := some hash, state := PaymentState.ERROR,
                      error := some msg },
             [CallbackEvent.onTxSubmitted hash, CallbackEvent.onError msg], some tx)
          | Except.ok _ =>
            ({ s with txHash := some hash, state := PaymentState.POLLING },
             [CallbackEvent.onTxSubmitted hash], some tx)
  | _, _ => (s, [], none)

/-- Backend view of a submitted payment (`PaymentStatusResponse.status`). -/
inductive PollStatus
  | pending
  | confirmed
  | failed
deriving DecidableEq, Repr

/-- One iteration of the `poll` closure (lines 161 to 177): confirmed
enters SUCCESS and fires onSuccess; failed throws a fixed message into
the inner catch; pending schedules another poll.  The inner catch sets
the error and the ERROR state but fires no callback. -/
def pollStep (s : ModalState) (statusRes : Except String PollStatus) :
    ModalState × List CallbackEvent :=
  match statusRes with
  | Except.error msg =>
    ({ s with state := PaymentState.ERROR, error := some msg }, [])
  | Except.ok PollStatus.confirmed =>
    ({ s with state := PaymentState.SUCCESS }, [CallbackEvent.onSuccess])
  | Except.ok PollStatus.failed =>
    ({ s with state := PaymentState.ERROR,
              error := some ("Payment failed verification") }, [])
  | Except.ok PollStatus.pending => (s, [])

/-- The Retry button of the ERROR rendering (line 290):
`onClick={() => setState(FETCHING_TOOL)}`.  The click issues no request
of its own. -/
def retryClick (s : ModalState) : ModalState × List Request :=
  ({ s with state := PaymentState.FETCHING_TOOL }, [])

/-- The effect hook with dependency list `[toolId]` (lines 40 to 42): it
runs `loadTool`, issuing the tool fetch, after the first mount
(`prevToolId = none`) and after a commit in which `toolId` changed, and
on no other commit. -/
def toolFetchEffect (prevToolId : Option String) (toolId : String) : List Request :=
  if prevToolId = some toolId then [] else [Request.fetchTool toolId]

/-! ## Helper lemmas: header splitting and comparison -/

theorem splitOnChar_eq_single {c : Char} : ∀ {l : List Char},
    (∀ x ∈ l, x ≠ c) → splitOnChar c l = [l] := by
  intro l
  induction l with
  | nil => intro _; rfl
  | cons x xs ih =>
    intro h
    have hx : x ≠ c := h x (List.mem_cons_self x xs)
    have hr := ih (fun y hy => h y (List.mem_cons_of_mem x hy))
    simp [splitOnChar, hx, hr]

theorem splitOnChar_append {c : Char} : ∀ (a b : List Char),
    (∀ x ∈ a, x ≠ c) → splitOnChar c (a ++ c :: b) = a :: splitOnChar c b := by
  intro a
  induction a with
  | nil =>
    intro b _
    simp [splitOnChar]
  | cons x xs ih =>
    intro b h
    have hx : x ≠ c := h x (List.mem_cons_self x xs)
    have hr := ih b (fun y hy => h y (List.mem_cons_of_mem x hy))
    show splitOnChar c (x :: (xs ++ c :: b)) = (x :: xs) :: splitOnChar c b
    simp only [splitOnChar, if_neg hx]
    rw [hr]

theorem parseFieldPair_mk {k v : List Char}
    (hk : ∀ x ∈ k, x ≠ '=') (hv : ∀ x ∈ v, x ≠ '=') :
    parseFieldPair (k ++ '=' :: v) = some (k, v) := by
  unfold parseFieldPair
  rw [splitOnChar_append k v hk, splitOnChar_eq_single hv]

theorem isDigitChar_ne_comma {x : Char} (h : isDigitChar x = true) : x ≠ ',' := by
  intro hx
  subst hx
  exact absurd h (by decide)

theorem isDigitChar_ne_eq {x : Char} (h : isDigitChar x = true) : x ≠ '=' := by
  intro hx
  subst hx
  exact absurd h (by decide)

theorem isLowerHexChar_ne_comma {x : Char} (h : isLowerHexChar x = true) : x ≠ ',' := by
  intro hx
  subst hx
  exact absurd h (by decide)

theorem isLowerHexChar_ne_eq {x : Char} (h : isLowerHexChar x = true) : x ≠ '=' := by
  intro hx
  subst hx
  exact absurd h (by decide)

theorem constantTimeEq_refl (a : List Char) : constantTimeEq a a = true := by
  have hz : ∀ l : List Char, (l.zip l).foldl (fun acc p => acc && (p.1 == p.2)) true = true := by
    intro l
    induction l with
    | nil => rfl
    | cons x xs ih => simpa [List.zip_cons_cons] using ih
  simp [constantTimeEq, hz a]

theorem fieldsOf_header (ts : List Char) (rest : List Char)
    (hts : ts.all isDigitChar = true) :
    fieldsOf ('t' :: '=' :: ts ++ ',' :: rest) =
      (['t'], ts) :: fieldsOf rest := by
  have hnc : ∀ x ∈ 't' :: '=' :: ts, x ≠ ',' := by
    intro x hx
    simp only [List.mem_cons] at hx
    rcases hx with rfl | rfl | hmem
    · decide
    · decide
    · exact isDigitChar_ne_comma (List.all_eq_true.mp hts x hmem)
  have hne : ∀ x ∈ ts, x ≠ '=' := by
    intro x hx
    exact isDigitChar_ne_eq (List.all_eq_true.mp hts x hx)
  have hsplit : splitOnChar ',' (('t' :: '=' :: ts) ++ ',' :: rest) =
      ('t' :: '=' :: ts) :: splitOnChar ',' rest :=
    splitOnChar_append _ rest hnc
  have hpair : parseFieldPair ('t' :: '=' :: ts) = some (['t'], ts) := by
    have := parseFieldPair_mk (k := ['t']) (v := ts) (by intro x hx; simp at hx; subst hx; decide) hne
    simpa using this
  unfold fieldsOf
  rw [show ('t' :: '=' :: ts ++ ',' :: rest) = (('t' :: '=' :: ts) ++ ',' :: rest) by simp,
      hsplit]
  simp [List.filterMap_cons, hpair]

theorem fieldsOf_v1_tail (sig : List Char)
    (hsig : sig.all isLowerHexChar = true) :
    fieldsOf ('v' :: '1' :: '=' :: sig) = [(['v', '1'], sig)] := by
  have hne : ∀ x ∈ sig, x ≠ '=' := by
    intro x hx
    exact isLowerHexChar_ne_eq (List.all_eq_true.mp hsig x hx)
  have hnc : ∀ x ∈ 'v' :: '1' :: '=' :: sig, x ≠ ',' := by
    intro x hx
    simp only [List.mem_cons] at hx
    rcases hx with rfl | rfl | rfl | hmem
    · decide
    · decide
    · decide
    · exact isLowerHexChar_ne_comma (List.all_eq_true.mp hsig x hmem)
  have hsplit : splitOnChar ',' ('v' :: '1' :: '=' :: sig) = ['v' :: '1' :: '=' :: sig] :=
    splitOnChar_eq_single hnc
  have hpair : parseFieldPair ('v' :: '1' :: '=' :: sig) = some (['v', '1'], sig) := by
    have := parseFieldPair_mk (k := ['v', '1']) (v := sig)
      (by intro x hx; simp at hx; rcases hx with h | h <;> subst h <;> decide) hne
    simpa using this
  unfold fieldsOf
  rw [hsplit]
  simp [List.filterMap_cons, hpair]

theorem parseSignatureHeader_well_formed (ts sig : List Char)
    (hts0 : ts ≠ []) (hts : ts.all isDigitChar = true)
    (hsig0 : sig ≠ []) (hsig : sig.all isLowerHexChar = true) :
    parseSignatureHeader ('t' :: '=' :: ts ++ ',' :: 'v' :: '1' :: '=' :: sig) =
      some ⟨ts, digitsToNat ts, sig⟩ := by
  have h1 : ts.isEmpty = false := by
    cases ts with
    | nil => exact absurd rfl hts0
    | cons x xs => rfl
  have h2 : sig.isEmpty = false := by
    cases sig with
    | nil => exact absurd rfl hsig0
    | cons x xs => rfl
  unfold parseSignatureHeader
  rw [fieldsOf_header ts _ hts, fieldsOf_v1_tail sig hsig]
  simp [lookupField, h1, h2, hts, hsig]

theorem parseSignatureHeader_t (ts rest : List Char)
    (hts : ts.all isDigitChar = true) :
    ∀ env, parseSignatureHeader ('t' :: '=' :: ts ++ ',' :: rest) = some env →
      env.t = digitsToNat ts := by
  intro env h
  unfold parseSignatureHeader at h
  rw [fieldsOf_header ts rest hts] at h
  have hT : lookupField ['t'] ((['t'], ts) :: fieldsOf rest) = some ts := by
    simp [lookupField]
  have hV : lookupField ['v', '1'] ((['t'], ts) :: fieldsOf rest) =
      lookupField ['v', '1'] (fieldsOf rest) := by
    simp [lookupField]
  rw [hT, hV] at h
  rcases hv : lookupField ['v', '1'] (fieldsOf rest) with _ | v1 <;> rw [hv] at h
  · simp at h
  · simp only [] at h
    by_cases hg : ((!ts.isEmpty && ts.all isDigitChar) && (!v1.isEmpty && v1.all isLowerHexChar)) = true
    · rw [if_pos hg] at h
      cases h
      rfl
    · rw [if_neg hg] at h
      exact absurd h (by simp)

theorem parseSignatureHeader_none_of_no_t {hdr : List Char}
    (h : lookupField ['t'] (fieldsOf hdr) = none) :
    parseSignatureHeader hdr = none := by
  unfold parseSignatureHeader
  rw [h]

theorem parseSignatureHeader_none_of_no_v1 {hdr : List Char}
    (h : lookupField ['v', '1'] (fieldsOf hdr) = none) :
    parseSignatureHeader hdr = none := by
  unfold parseSignatureHeader
  rw [h]
  rcases ht : lookupField ['t'] (fieldsOf hdr) with _ | ts <;> rfl

/-! ## Claims on the webhook verifier -/

/-- C1.  For every secret, body and timestamp, the verifier accepts a
header whose v1 field is exactly the keyed-hash hex of the byte sequence
`{t}.{rawBody}` under the secret whenever the clock skew `|now − t|` is
within the tolerance, and rejects every header carrying that timestamp,
whatever its v1 field, whenever the skew exceeds the tolerance. -/
theorem verify_requires_signature_and_window
    (mac : String → String → String) (body secret : String)
    (ts : List Char) (now tol : Nat)
    (hts0 : ts ≠ []) (hts : ts.all isDigitChar = true)
    (hmac0 : (mac secret (String.mk ts ++ "." ++ body)).toList ≠ [])
    (hmac : (mac secret (String.mk ts ++ "." ++ body)).toList.all isLowerHexChar = true) :
    (clockSkew now (digitsToNat ts) ≤ tol →
      verifyWebhookSignature mac body
        (String.mk ('t' :: '=' :: ts ++ ',' :: 'v' :: '1' :: '=' ::
          (mac secret (String.mk ts ++ "." ++ body)).toList))
        secret tol now = true) ∧
    (tol < clockSkew now (digitsToNat ts) →
      ∀ sig : String,
        verifyWebhookSignature mac body
          (String.mk ('t' :: '=' :: ts ++ ',' :: 'v' :: '1' :: '=' :: sig.toList))
          secret tol now = false) := by
  constructor
  · intro hwin
    have hp := parseSignatureHeader_well_formed ts
      ((mac secret (String.mk ts ++ "." ++ body)).toList) hts0 hts hmac0 hmac
    unfold verifyWebhookSignature
    rw [show String.toList (String.mk ('t' :: '=' :: ts ++ ',' :: 'v' :: '1' :: '=' ::
        (mac secret (String.mk ts ++ "." ++ body)).toList)) =
      ('t' :: '=' :: ts ++ ',' :: 'v' :: '1' :: '=' ::
        (mac secret (String.mk ts ++ "." ++ body)).toList) from rfl, hp]
    simp [constantTimeEq_refl, hwin]
  · intro hout sig
    unfold verifyWebhookSignature
    rw [show String.toList (String.mk ('t' :: '=' :: ts ++ ',' :: 'v' :: '1' :: '=' ::
        sig.toList)) = ('t' :: '=' :: ts ++ ',' :: 'v' :: '1' :: '=' :: sig.toList) from rfl]
    rcases hpp : parseSignatureHeader ('t' :: '=' :: ts ++ ',' :: 'v' :: '1' :: '=' ::
        sig.toList) with _ | env
    · rfl
    · have ht : env.t = digitsToNat ts :=
        parseSignatureHeader_t ts ('v' :: '1' :: '=' :: sig.toList) hts env hpp
      have hnot : ¬ clockSkew now env.t ≤ tol := by
        rw [ht]
        exact Nat.not_le.mpr hout
      simp [hnot]

/-- C1 witness: a concrete run through both arms of the theorem. -/
theorem verify_requires_signature_and_window_witness :
    verifyWebhookSignature (fun _ _ => ("ab")) ("body")
      (String.mk ('t' :: '=' :: ['5'] ++ ',' :: 'v' :: '1' :: '=' ::
        ((fun _ _ => ("ab")) ("sec") (String.mk ['5'] ++ "." ++ ("body"))).toList))
      ("sec") 300 6 = true ∧
    verifyWebhookSignature (fun _ _ => ("ab")) ("body")
      (String.mk ('t' :: '=' :: ['5'] ++ ',' :: 'v' :: '1' :: '=' ::
        ("zz").toList)) ("sec") 2 600 = false :=
  ⟨(verify_requires_signature_and_window (fun _ _ => ("ab")) ("body") ("sec")
      ['5'] 6 300 (by decide) (by decide) (by decide) (by decide)).1 (by decide),
   (verify_requires_signature_and_window (fun _ _ => ("ab")) ("body") ("sec")
      ['5'] 600 2 (by decide) (by decide) (by decide) (by decide)).2 (by decide) ("zz")⟩

/-- C2.  The verifier is a total boolean function; an empty header, a
header missing the t field or the v1 field, and any header from which no
well-formed envelope parses, all produce `false` rather than an
exception. -/
theorem verify_malformed_header_false
    (mac : String → String → String) (body secret : String) (tol now : Nat) :
    verifyWebhookSignature mac body ("") secret tol now = false ∧
    verifyWebhookSignature mac body ("invalid_format") secret tol now = false ∧
    ∀ hdr : String,
      (lookupField ['t'] (fieldsOf hdr.toList) = none ∨
       lookupField ['v', '1'] (fieldsOf hdr.toList) = none ∨
       parseSignatureHeader hdr.toList = none) →
      verifyWebhookSignature mac body hdr secret tol now = false := by
  refine ⟨?_, ?_, ?_⟩
  · unfold verifyWebhookSignature
    rw [show parseSignatureHeader (String.toList ("")) = none from by decide]
  · unfold verifyWebhookSignature
    rw [show parseSignatureHeader (String.toList ("invalid_format")) = none from by decide]
  · intro hdr h
    have hnone : parseSignatureHeader hdr.toList = none := by
      rcases h with h | h | h
      · exact parseSignatureHeader_none_of_no_t h
      · exact parseSignatureHeader_none_of_no_v1 h
      · exact h
    unfold verifyWebhookSignature
    rw [hnone]

/-- C2 witness: the theorem applied to a header lacking both fields. -/
theorem verify_malformed_header_false_witness :
    verifyWebhookSignature (fun _ _ => ("ab")) ("b") ("t=12") ("s") 300 0 = false :=
  (verify_malformed_header_false (fun _ _ => ("ab")) ("b") ("s") 300 0).2.2
    ("t=12") (Or.inr (Or.inl (by decide)))

/-! ## Helper lemmas: ranking -/

theorem tokenLe_spec {a b : TokenWithBalance} (h : tokenLe a b) :
    (b.hasBalance = true → a.hasBalance = true) ∧
    (a.hasBalance = true → b.hasBalance = true → b.balance ≤ a.balance) := by
  unfold tokenLe compareTokens at h
  rcases hA : a.hasBalance <;> rcases hB : b.hasBalance
  · exact ⟨fun hb => absurd hb (by simp [hB]), fun ha => absurd ha (by simp [hA])⟩
  · rw [hA, hB] at h
    simp at h
  · exact ⟨fun hb => absurd hb (by simp [hB]), fun _ hb => absurd hb (by simp [hB])⟩
  · refine ⟨fun _ => rfl, fun _ _ => ?_⟩
    rw [hA, hB] at h
    simp at h
    split at h <;> omega

theorem tokenLe_of_both_no {a b : TokenWithBalance}
    (ha : a.hasBalance = false) (hb : b.hasBalance = false) : tokenLe a b := by
  simp [tokenLe, compareTokens, ha, hb]

theorem hasBalance_of_not_tokenLe {a b : TokenWithBalance}
    (h : ¬ tokenLe a b) : b.hasBalance = true := by
  rcases hB : b.hasBalance
  · exfalso
    apply h
    unfold tokenLe compareTokens
    rcases hA : a.hasBalance <;> simp [hA, hB]
  · rfl

theorem filter_orderedInsert_pos {α : Type} {r : α → α → Prop} [DecidableRel r]
    {p : α → Bool} (x : α) (hx : p x = true) (hstop : ∀ b, p b = true → r x b)
    (hskip : ∀ b, ¬ r x b → p b = false) :
    ∀ t : List α, (List.orderedInsert r x t).filter p = x :: t.filter p := by
  intro t
  induction t with
  | nil => simp [List.orderedInsert, hx]
  | cons b bs ih =>
    by_cases hrb : r x b
    · simp [List.orderedInsert, if_pos hrb, hx]
    · have hpb : p b = false := hskip b hrb
      simp [List.orderedInsert, if_neg hrb, hpb, ih]

theorem filter_orderedInsert_neg {α : Type} {r : α → α → Prop} [DecidableRel r]
    {p : α → Bool} (x : α) (hx : p x = false)
    (hskip : ∀ b, ¬ r x b → p b = false) :
    ∀ t : List α, (List.orderedInsert r x t).filter p = t.filter p := by
  intro t
  induction t with
  | nil => simp [List.orderedInsert, hx]
  | cons b bs ih =>
    by_cases hrb : r x b
    · simp [List.orderedInsert, if_pos hrb, hx]
    · have hpb : p b = false := hskip b hrb
      simp [List.orderedInsert, if_neg hrb, hpb, ih]

theorem noBalance_filter_stable : ∀ l : List TokenWithBalance,
    (List.insertionSort tokenLe l).filter (fun t => !t.hasBalance) =
      l.filter (fun t => !t.hasBalance) := by
  intro l
  induction l with
  | nil => rfl
  | cons x xs ih =>
    show (List.orderedInsert tokenLe x (List.insertionSort tokenLe xs)).filter _ = _
    rcases hpx : x.hasBalance
    · rw [filter_orderedInsert_pos x (by simp [hpx])
        (fun b hb => tokenLe_of_both_no hpx (by simpa using hb))
        (fun b hnb => by simp [hasBalance_of_not_tokenLe hnb]) _, ih]
      simp [List.filter_cons, hpx]
    · rw [filter_orderedInsert_neg x (by simp [hpx])
        (fun b hnb => by simp [hasBalance_of_not_tokenLe hnb]) _, ih]
      simp [List.filter_cons, hpx]

/-! ## Claims on the balance aggregator -/

/-- C3 (amended).  The output of `fetchTokenBalances` is a permutation of
the resolved input in which every token with a balance precedes every
token without one and balances within the with-balance group are
non-increasing, and the no-balance group keeps its input relative order.
The further tie clause of the claim, that equal balances inside the
with-balance group keep input order, is engine-defined and refuted
separately: the comparator returns -1, never 0, on such ties. -/
theorem fetchTokenBalances_ranking (env : TokenConfig → Option Nat)
    (tokens : List TokenConfig) :
    (fetchTokenBalances env tokens).Pairwise (fun a b =>
        (b.hasBalance = true → a.hasBalance = true) ∧
        (a.hasBalance = true → b.hasBalance = true → b.balance ≤ a.balance)) ∧
    (fetchTokenBalances env tokens).filter (fun t => !t.hasBalance) =
      (tokens.map (resolveToken env)).filter (fun t => !t.hasBalance) ∧
    (fetchTokenBalances env tokens).Perm (tokens.map (resolveToken env)) := by
  refine ⟨?_, noBalance_filter_stable _, List.perm_insertionSort _ _⟩
  have hs := List.sorted_insertionSort tokenLe (tokens.map (resolveToken env))
  exact List.Pairwise.imp (fun hle => tokenLe_spec hle) hs

/-- C3 counterexample.  Two distinct tokens resolving to the same
positive balance: the V8 engine (node, chrome) reverses them, while a
left-leaning stable merge keeps them, so the claimed tie preservation
fails on the dominant runtime and is not determined by the source. -/
theorem fetchTokenBalances_tie_not_preserved :
    fetchTokenBalancesV8Pair (fun _ => some 5)
        ⟨("AAA"), ("TokenA"), some ("0xa"), 2, false⟩
        ⟨("BBB"), ("TokenB"), some ("0xb"), 2, false⟩ =
      [resolveToken (fun _ => some 5) ⟨("BBB"), ("TokenB"), some ("0xb"), 2, false⟩,
       resolveToken (fun _ => some 5) ⟨("AAA"), ("TokenA"), some ("0xa"), 2, false⟩] ∧
    fetchTokenBalances (fun _ => some 5)
        [⟨("AAA"), ("TokenA"), some ("0xa"), 2, false⟩,
         ⟨("BBB"), ("TokenB"), some ("0xb"), 2, false⟩] =
      [resolveToken (fun _ => some 5) ⟨("AAA"), ("TokenA"), some ("0xa"), 2, false⟩,
       resolveToken (fun _ => some 5) ⟨("BBB"), ("TokenB"), some ("0xb"), 2, false⟩] ∧
    (resolveToken (fun _ => some 5)
        ⟨("AAA"), ("TokenA"), some ("0xa"), 2, false⟩).hasBalance = true ∧
    (resolveToken (fun _ => some 5)
        ⟨("BBB"), ("TokenB"), some ("0xb"), 2, false⟩).hasBalance = true ∧
    (resolveToken (fun _ => some 5)
        ⟨("AAA"), ("TokenA"), some ("0xa"), 2, false⟩).balance =
      (resolveToken (fun _ => some 5)
        ⟨("BBB"), ("TokenB"), some ("0xb"), 2, false⟩).balance := by
  refine ⟨by decide, by decide, by decide, by decide, by decide⟩

/-- C6.  The aggregator returns one entry per input token; a token whose
resolution rejects is reported with balance zero, formatted balance "0"
and no balance flag, and stays a member of the output, so a single
failure never rejects the batch (the aggregator is a total function of
the environment). -/
theorem fetchTokenBalances_length_and_failures (env : TokenConfig → Option Nat)
    (tokens : List TokenConfig) :
    (fetchTokenBalances env tokens).length = tokens.length ∧
    ∀ t ∈ tokens, env t = none →
      resolveToken env t ∈ fetchTokenBalances env tokens ∧
      (resolveToken env t).balance = 0 ∧
      (resolveToken env t).balanceFormatted = "0" ∧
      (resolveToken env t).hasBalance = false := by
  constructor
  · simp [fetchTokenBalances, List.length_insertionSort, List.length_map]
  · intro t ht henv
    refine ⟨?_, by simp [resolveToken, henv], by simp [resolveToken, henv],
      by simp [resolveToken, henv]⟩
    unfold fetchTokenBalances
    rw [List.mem_insertionSort]
    exact List.mem_map_of_mem _ ht

/-- C6 witness: a singleton batch whose only resolution fails. -/
theorem fetchTokenBalances_length_and_failures_witness :
    (⟨("T"), ("T"), none, 2, false⟩ : TokenConfig) ∈
      [(⟨("T"), ("T"), none, 2, false⟩ : TokenConfig)] ∧
    (fun _ => (none : Option Nat)) (⟨("T"), ("T"), none, 2, false⟩ : TokenConfig) = none ∧
    resolveToken (fun _ => none) ⟨("T"), ("T"), none, 2, false⟩ ∈
      fetchTokenBalances (fun _ => none) [⟨("T"), ("T"), none, 2, false⟩] ∧
    (resolveToken (fun _ => none) ⟨("T"), ("T"), none, 2, false⟩).balance = 0 ∧
    (resolveToken (fun _ => none) ⟨("T"), ("T"), none, 2, false⟩).balanceFormatted = "0" ∧
    (resolveToken (fun _ => none) ⟨("T"), ("T"), none, 2, false⟩).hasBalance = false :=
  ⟨by decide, rfl,
    (fetchTokenBalances_length_and_failures (fun _ => none)
      [⟨("T"), ("T"), none, 2, false⟩]).2 _ (by decide) rfl⟩

/-- C10.  For a successfully resolved balance the flag is exactly
positivity of the integer balance; a resolved zero balance yields the
flag false and the entry lands in the no-balance group of the ranked
output. -/
theorem resolveToken_hasBalance_iff (env : TokenConfig → Option Nat)
    (t : TokenConfig) (bal : Nat) (h : env t = some bal) :
    ((resolveToken env t).hasBalance = true ↔ 0 < bal) ∧
    (resolveToken env t).balance = bal ∧
    (bal = 0 → (resolveToken env t).hasBalance = false) ∧
    ∀ tokens, t ∈ tokens → bal = 0 →
      resolveToken env t ∈
        (fetchTokenBalances env tokens).filter (fun u => !u.hasBalance) := by
  refine ⟨by simp [resolveToken, h], by simp [resolveToken, h],
    fun hb => by simp [resolveToken, h, hb], ?_⟩
  intro tokens ht hb
  rw [List.mem_filter]
  constructor
  · unfold fetchTokenBalances
    rw [List.mem_insertionSort]
    exact List.mem_map_of_mem _ ht
  · simp [resolveToken, h, hb]

/-- C10 witness: a token resolving to exactly zero. -/
theorem resolveToken_hasBalance_iff_witness :
    (fun _ => (some 0 : Option Nat)) (⟨("Z"), ("Z"), none, 2, false⟩ : TokenConfig) =
      some 0 ∧
    ¬ (0 : Nat) < 0 ∧
    (resolveToken (fun _ => some 0) ⟨("Z"), ("Z"), none, 2, false⟩).hasBalance = false ∧
    resolveToken (fun _ => some 0) ⟨("Z"), ("Z"), none, 2, false⟩ ∈
      (fetchTokenBalances (fun _ => some 0)
        [⟨("Z"), ("Z"), none, 2, false⟩]).filter (fun u => !u.hasBalance) :=
  ⟨rfl, by decide,
    (resolveToken_hasBalance_iff (fun _ => some 0)
      ⟨("Z"), ("Z"), none, 2, false⟩ 0 rfl).2.2.1 rfl,
    (resolveToken_hasBalance_iff (fun _ => some 0)
      ⟨("Z"), ("Z"), none, 2, false⟩ 0 rfl).2.2.2 _ (by decide) rfl⟩

/-! ## Helper lemmas: decimal scaling -/

theorem isDigitChar_ne_dot {x : Char} (h : isDigitChar x = true) : x ≠ '.' := by
  intro hx
  subst hx
  exact absurd h (by decide)

theorem foldl_digits_from (l : List Char) : ∀ n : Nat,
    l.foldl (fun m c => m * 10 + (c.toNat - 48)) n =
      n * 10 ^ l.length + digitsToNat l := by
  induction l with
  | nil => intro n; simp [digitsToNat]
  | cons c cs ih =>
    intro n
    show List.foldl _ (n * 10 + (c.toNat - 48)) cs = _
    rw [ih (n * 10 + (c.toNat - 48))]
    have h0 : digitsToNat (c :: cs) = (c.toNat - 48) * 10 ^ cs.length + digitsToNat cs := by
      show List.foldl _ ((0 : Nat) * 10 + (c.toNat - 48)) cs = _
      rw [ih ((0 : Nat) * 10 + (c.toNat - 48))]
      ring
    rw [List.length_cons, h0]
    ring

theorem digitsToNat_append (a b : List Char) :
    digitsToNat (a ++ b) = digitsToNat a * 10 ^ b.length + digitsToNat b := by
  show (a ++ b).foldl _ 0 = _
  rw [List.foldl_append]
  exact foldl_digits_from b (digitsToNat a)

theorem digitsToNat_replicate_zero (k : Nat) :
    digitsToNat (List.replicate k '0') = 0 := by
  induction k with
  | zero => rfl
  | succ n ih =>
    show List.foldl _ ((0 : Nat) * 10 + ('0'.toNat - 48)) (List.replicate n '0') = 0
    rw [show (0 : Nat) * 10 + ('0'.toNat - 48) = 0 from by decide]
    exact ih

theorem trimTrailingZeros_eq_self {f : List Char} (h : f.getLast? ≠ some '0') :
    trimTrailingZeros f = f := by
  cases hr : f.reverse with
  | nil =>
    have hf : f = [] := by simpa using congrArg List.reverse hr
    subst hf
    rfl
  | cons x xs =>
    have hx : x ≠ '0' := by
      intro hx0
      apply h
      rw [← List.head?_reverse, hr, hx0]
      rfl
    unfold trimTrailingZeros
    rw [hr, List.dropWhile_cons]
    rw [if_neg (by simp [hx])]
    rw [← hr, List.reverse_reverse]

/-! ## Claim on the amount conversion -/

/-- C4.  The conversion is exact string-based scaling: a decimal string
with integer digits i and fraction digits f (no trailing zero) at
precision d with the fraction no longer than d converts to exactly
i scaled by ten to the d plus f scaled by ten to the remaining places;
in particular 49.99 converts to 4999 base units at two decimals and to
49990000000000000000 at eighteen.  Determinism across repeated
conversions is inherent: the conversion is a pure function of its two
arguments. -/
theorem parseUnits_exact (i f : List Char) (d : Nat)
    (hi : i.all isDigitChar = true) (hf : f.all isDigitChar = true)
    (htrim : f.getLast? ≠ some '0') (hlen : f.length ≤ d) :
    parseUnits (String.mk (i ++ '.' :: f)) d =
      some (digitsToNat i * 10 ^ d + digitsToNat f * 10 ^ (d - f.length)) ∧
    parseUnits ("49.99") 2 = some 4999 ∧
    parseUnits ("49.99") 18 = some 49990000000000000000 := by
  refine ⟨?_, by decide, by decide⟩
  have hsplit : splitOnChar '.' (i ++ '.' :: f) = [i, f] := by
    rw [splitOnChar_append i f
        (fun x hx => isDigitChar_ne_dot (List.all_eq_true.mp hi x hx)),
      splitOnChar_eq_single
        (fun x hx => isDigitChar_ne_dot (List.all_eq_true.mp hf x hx))]
  unfold parseUnits
  rw [show String.toList (String.mk (i ++ '.' :: f)) = i ++ '.' :: f from rfl, hsplit]
  show parseUnitsCore i f d = _
  unfold parseUnitsCore
  rw [trimTrailingZeros_eq_self htrim, if_neg (by omega : ¬ d < f.length)]
  have hrep : (List.replicate (d - f.length) '0').all isDigitChar = true :=
    List.all_eq_true.mpr (fun x hx => by rw [List.eq_of_mem_replicate hx]; decide)
  have hall : ((i ++ f ++ List.replicate (d - f.length) '0').all isDigitChar) = true := by
    rw [List.all_append, List.all_append, hi, hf, hrep]
    rfl
  unfold jsBigIntOfDigits
  rw [if_pos hall]
  congr 1
  rw [List.append_assoc, digitsToNat_append i (f ++ List.replicate (d - f.length) '0'),
    digitsToNat_append f (List.replicate (d - f.length) '0'),
    digitsToNat_replicate_zero, List.length_append, List.length_replicate,
    show f.length + (d - f.length) = d from by omega]
  ring

/-- C4 witness: the general arm of the theorem evaluated at 7.5 with
three decimals. -/
theorem parseUnits_exact_witness :
    parseUnits (String.mk (['7'] ++ '.' :: ['5'])) 3 = some 7500 := by
  have h := (parseUnits_exact ['7'] ['5'] 3 (by decide) (by decide) (by decide)
    (by decide)).1
  rw [h]
  decide

/-! ## Helper lemmas: selection and step equations -/

theorem find?_decomp {α : Type} {p : α → Bool} :
    ∀ (l : List α) (a : α), l.find? p = some a →
      ∃ l1 l2, l = l1 ++ a :: l2 ∧ p a = true ∧ ∀ u ∈ l1, p u = false := by
  intro l
  induction l with
  | nil => intro a h; simp [List.find?] at h
  | cons x xs ih =>
    intro a h
    rcases hx : p x
    · rw [List.find?_cons, hx] at h
      rcases ih a h with ⟨l1, l2, heq, hp, hall⟩
      refine ⟨x :: l1, l2, by rw [heq]; rfl, hp, ?_⟩
      intro u hu
      rcases List.mem_cons.mp hu with rfl | hu
      · exact hx
      · exact hall u hu
    · rw [List.find?_cons, hx] at h
      cases h
      exact ⟨[], xs, rfl, hx, by intro u hu; cases hu⟩

theorem selectDefault_spec (L : List TokenWithBalance) (hne : L ≠ []) :
    ∃ t, selectDefault L = some t ∧
      ((t.hasBalance = true ∧
          ∃ l1 l2, L = l1 ++ t :: l2 ∧ ∀ u ∈ l1, u.hasBalance = false) ∨
       ((∀ u ∈ L, u.hasBalance = false) ∧ L.head? = some t)) := by
  rcases hf : L.find? (fun u => u.hasBalance) with _ | t
  · rcases hL : L with _ | ⟨b, bs⟩
    · exact absurd hL hne
    · subst hL
      refine ⟨b, by unfold selectDefault; rw [hf]; rfl, Or.inr ⟨?_, rfl⟩⟩
      intro u hu
      have := List.find?_eq_none.mp hf u hu
      simpa using this
  · rcases find?_decomp L t hf with ⟨l1, l2, hL, hp, hall⟩
    exact ⟨t, by unfold selectDefault; rw [hf], Or.inl ⟨hp, l1, l2, hL, hall⟩⟩

theorem checkBalancesStep_ok_eq (s : ModalState) (data : ToolData) (acc : Nat)
    (env : TokenConfig → Option Nat) :
    checkBalancesStep s data (Except.ok acc) (Except.ok ()) env =
      ({ s with
          tokens := fetchTokenBalances env data.available_tokens,
          selectedToken := selectDefault (fetchTokenBalances env data.available_tokens),
          state := PaymentState.SELECT_TOKEN }, []) := by
  simp only [checkBalancesStep, ite_self]

/-! ## Claims on the orchestrator -/

/-- C5.  The transaction handed to the wallet is exactly one of two
shapes: a native transfer to the merchant address carrying the base-unit
amount as its value and no data, or a call to the token contract address
whose data encodes transfer of the amount to the merchant address. -/
theorem handlePay_tx_shape (s : ModalState) (td : ToolData)
    (tok : TokenWithBalance) (intent : BackendIntentResponse) (wei : Nat)
    (sendRes : SentTx → Except String String) (submitRes : Except String String)
    (h1 : s.toolData = some td) (h2 : s.selectedToken = some tok)
    (h3 : parseUnits intent.amount tok.decimals = some wei) :
    (handlePayStep s (Except.ok intent) sendRes submitRes).2.2 =
      some (if tok.isNative then
          SentTx.native ⟨intent.merchantAddress, wei, td.chain_id⟩
        else
          SentTx.erc20 ⟨intent.tokenAddress, ⟨intent.merchantAddress, wei⟩,
            td.chain_id⟩) := by
  simp only [handlePayStep, h1, h2, h3]
  split
  · rfl
  · split <;> rfl

/-- C5 witness: a non-native token paid through a concrete run. -/
theorem handlePay_tx_shape_witness :
    (handlePayStep
      ⟨PaymentState.SELECT_TOKEN,
        some ⟨("t"), ("1.5"), ("USD"), 1, ("0xr"), []⟩, [],
        some ⟨("T"), ("T"), some ("0xtok"), 2, false, 150, ("1.5"), true⟩,
        none, none⟩
      (Except.ok ⟨("i"), ("1.5"), ("USD"), 1, ("0xtok"), ("0xm"), ("e"), ("s"), ("n")⟩)
      (fun _ => Except.ok ("0xhash")) (Except.ok ("pid"))).2.2 =
      some (SentTx.erc20 ⟨("0xtok"), ⟨("0xm"), 150⟩, 1⟩) := by
  have h := handlePay_tx_shape
    ⟨PaymentState.SELECT_TOKEN,
      some ⟨("t"), ("1.5"), ("USD"), 1, ("0xr"), []⟩, [],
      some ⟨("T"), ("T"), some ("0xtok"), 2, false, 150, ("1.5"), true⟩,
      none, none⟩
    ⟨("t"), ("1.5"), ("USD"), 1, ("0xr"), []⟩
    ⟨("T"), ("T"), some ("0xtok"), 2, false, 150, ("1.5"), true⟩
    ⟨("i"), ("1.5"), ("USD"), 1, ("0xtok"), ("0xm"), ("e"), ("s"), ("n")⟩
    150 (fun _ => Except.ok ("0xhash")) (Except.ok ("pid")) rfl rfl (by decide)
  rw [h]
  decide

/-- C7 (amended).  Failures of the tool fetch, the account lookup, the
chain switch, the intent creation, the broadcast and the payment
submission are each caught at the boundary of their handler, move the
machine to ERROR and fire the error callback; a status-poll failure and a
backend-reported failed payment are also caught and move to ERROR, but
fire no callback.  Every step is a total function, so nothing escapes the
orchestrator. -/
theorem orchestrator_failures_caught (s : ModalState) (data : ToolData)
    (msg hash : String) (connected : Bool) (acc : Nat)
    (env : TokenConfig → Option Nat) (switchRes : Except String Unit)
    (sendRes0 : SentTx → Except String String) (submitRes0 : Except String String)
    (td : ToolData) (tok : TokenWithBalance) (intent : BackendIntentResponse)
    (wei : Nat) (h1 : s.toolData = some td) (h2 : s.selectedToken = some tok)
    (h3 : parseUnits intent.amount tok.decimals = some wei) :
    loadToolStep s connected (Except.error msg) =
      ({ s with state := PaymentState.ERROR, error := some msg },
       [CallbackEvent.onOpen, CallbackEvent.onError msg]) ∧
    checkBalancesStep s data (Except.error msg) switchRes env =
      ({ s with state := PaymentState.ERROR, error := some msg },
       [CallbackEvent.onError msg]) ∧
    (acc ≠ data.chain_id →
      checkBalancesStep s data (Except.ok acc) (Except.error msg) env =
        ({ s with state := PaymentState.ERROR, error := some msg },
         [CallbackEvent.onError msg])) ∧
    handlePayStep s (Except.error msg) sendRes0 submitRes0 =
      ({ s with state := PaymentState.ERROR, error := some msg },
       [CallbackEvent.onError msg], none) ∧
    ((handlePayStep s (Except.ok intent) (fun _ => Except.error msg) submitRes0).1 =
        { s with state := PaymentState.ERROR, error := some msg } ∧
      (handlePayStep s (Except.ok intent) (fun _ => Except.error msg) submitRes0).2.1 =
        [CallbackEvent.onError msg]) ∧
    ((handlePayStep s (Except.ok intent) (fun _ => Except.ok hash)
        (Except.error msg)).1 =
        { s with
            txHash := some hash,
            state := PaymentState.ERROR,
            error := some msg } ∧
      (handlePayStep s (Except.ok intent) (fun _ => Except.ok hash)
        (Except.error msg)).2.1 =
        [CallbackEvent.onTxSubmitted hash, CallbackEvent.onError msg]) ∧
    pollStep s (Except.error msg) =
      ({ s with state := PaymentState.ERROR, error := some msg }, []) ∧
    pollStep s (Except.ok PollStatus.failed) =
      ({ s with
          state := PaymentState.ERROR,
          error := some ("Payment failed verification") }, []) := by
  refine ⟨rfl, rfl, ?_, ?_, ⟨?_, ?_⟩, ⟨?_, ?_⟩, rfl, rfl⟩
  · intro hne
    simp only [checkBalancesStep]
    rw [if_pos hne]
  · simp only [handlePayStep, h1, h2]
  · simp only [handlePayStep, h1, h2, h3]
  · simp only [handlePayStep, h1, h2, h3]
  · simp only [handlePayStep, h1, h2, h3]
  · simp only [handlePayStep, h1, h2, h3]

/-- C7 witness: the amended theorem run at a concrete state, extracting
the poll-failure arm and the tool-fetch-failure arm. -/
theorem orchestrator_failures_caught_witness :
    pollStep ⟨PaymentState.POLLING, some ⟨("t"), ("1"), ("USD"), 1, ("0xr"), []⟩,
        [], some ⟨("T"), ("T"), none, 2, true, 1, ("1"), true⟩, none, none⟩
        (Except.error ("boom")) =
      (⟨PaymentState.ERROR, some ⟨("t"), ("1"), ("USD"), 1, ("0xr"), []⟩,
        [], some ⟨("T"), ("T"), none, 2, true, 1, ("1"), true⟩,
        some ("boom"), none⟩, []) ∧
    loadToolStep ⟨PaymentState.POLLING, some ⟨("t"), ("1"), ("USD"), 1, ("0xr"), []⟩,
        [], some ⟨("T"), ("T"), none, 2, true, 1, ("1"), true⟩, none, none⟩ false
        (Except.error ("boom")) =
      (⟨PaymentState.ERROR, some ⟨("t"), ("1"), ("USD"), 1, ("0xr"), []⟩,
        [], some ⟨("T"), ("T"), none, 2, true, 1, ("1"), true⟩,
        some ("boom"), none⟩,
       [CallbackEvent.onOpen, CallbackEvent.onError ("boom")]) :=
  ⟨(orchestrator_failures_caught
      ⟨PaymentState.POLLING, some ⟨("t"), ("1"), ("USD"), 1, ("0xr"), []⟩, [],
        some ⟨("T"), ("T"), none, 2, true, 1, ("1"), true⟩, none, none⟩
      ⟨("t"), ("1"), ("USD"), 1, ("0xr"), []⟩ ("boom") ("0xh") false 2
      (fun _ => none) (Except.ok ()) (fun _ => Except.ok ("0xh")) (Except.ok ("p"))
      ⟨("t"), ("1"), ("USD"), 1, ("0xr"), []⟩
      ⟨("T"), ("T"), none, 2, true, 1, ("1"), true⟩
      ⟨("i"), ("1"), ("USD"), 1, ("0xt"), ("0xm"), ("e"), ("s"), ("n")⟩
      100 rfl rfl (by decide)).2.2.2.2.2.2.1,
   (orchestrator_failures_caught
      ⟨PaymentState.POLLING, some ⟨("t"), ("1"), ("USD"), 1, ("0xr"), []⟩, [],
        some ⟨("T"), ("T"), none, 2, true, 1, ("1"), true⟩, none, none⟩
      ⟨("t"), ("1"), ("USD"), 1, ("0xr"), []⟩ ("boom") ("0xh") false 2
      (fun _ => none) (Except.ok ()) (fun _ => Except.ok ("0xh")) (Except.ok ("p"))
      ⟨("t"), ("1"), ("USD"), 1, ("0xr"), []⟩
      ⟨("T"), ("T"), none, 2, true, 1, ("1"), true⟩
      ⟨("i"), ("1"), ("USD"), 1, ("0xt"), ("0xm"), ("e"), ("s"), ("n")⟩
      100 rfl rfl (by decide)).1⟩

/-- C7 counterexample.  A status-poll failure is caught and moves the
machine to ERROR, but the returned callback list is empty: the error
callback the claim demands for status polling is not fired. -/
theorem poll_failure_fires_no_error_callback :
    pollStep ⟨PaymentState.POLLING, none, [], none, none, some ("0xabc")⟩
        (Except.error ("Failed to get payment status: Internal Server Error")) =
      (⟨PaymentState.ERROR, none, [], none,
        some ("Failed to get payment status: Internal Server Error"),
        some ("0xabc")⟩, ([] : List CallbackEvent)) := rfl

/-- C8.  When balance checking succeeds on a non-empty ranked list, the
machine enters SELECT_TOKEN and the auto-selected token is the first
ranked token with a balance, or the head of the ranked list when no token
has a balance. -/
theorem checkBalances_success_selects_first (s : ModalState) (data : ToolData)
    (acc : Nat) (env : TokenConfig → Option Nat)
    (hne : fetchTokenBalances env data.available_tokens ≠ []) :
    (checkBalancesStep s data (Except.ok acc) (Except.ok ()) env).1.state =
      PaymentState.SELECT_TOKEN ∧
    ∃ t, (checkBalancesStep s data (Except.ok acc) (Except.ok ()) env).1.selectedToken =
        some t ∧
      ((t.hasBalance = true ∧
          ∃ l1 l2, fetchTokenBalances env data.available_tokens = l1 ++ t :: l2 ∧
            ∀ u ∈ l1, u.hasBalance = false) ∨
       ((∀ u ∈ fetchTokenBalances env data.available_tokens, u.hasBalance = false) ∧
        (fetchTokenBalances env data.available_tokens).head? = some t)) := by
  rw [checkBalancesStep_ok_eq]
  exact ⟨rfl, selectDefault_spec _ hne⟩

/-- C8 witness: a single-token batch with a positive balance. -/
theorem checkBalances_success_selects_first_witness :
    fetchTokenBalances (fun _ => some 1) [(⟨("T"), ("T"), none, 2, true⟩ : TokenConfig)] ≠ [] ∧
    ((checkBalancesStep ⟨PaymentState.FETCHING_BALANCES, none, [], none, none, none⟩
        ⟨("tool"), ("1"), ("USD"), 1, ("0xr"), [⟨("T"), ("T"), none, 2, true⟩]⟩
        (Except.ok 1) (Except.ok ()) (fun _ => some 1)).1.state =
        PaymentState.SELECT_TOKEN ∧
      ∃ t, (checkBalancesStep ⟨PaymentState.FETCHING_BALANCES, none, [], none, none, none⟩
          ⟨("tool"), ("1"), ("USD"), 1, ("0xr"), [⟨("T"), ("T"), none, 2, true⟩]⟩
          (Except.ok 1) (Except.ok ()) (fun _ => some 1)).1.selectedToken = some t ∧
        ((t.hasBalance = true ∧
            ∃ l1 l2, fetchTokenBalances (fun _ => some 1)
                [(⟨("T"), ("T"), none, 2, true⟩ : TokenConfig)] = l1 ++ t :: l2 ∧
              ∀ u ∈ l1, u.hasBalance = false) ∨
         ((∀ u ∈ fetchTokenBalances (fun _ => some 1)
              [(⟨("T"), ("T"), none, 2, true⟩ : TokenConfig)], u.hasBalance = false) ∧
          (fetchTokenBalances (fun _ => some 1)
            [(⟨("T"), ("T"), none, 2, true⟩ : TokenConfig)]).head? = some t))) :=
  ⟨by decide, checkBalances_success_selects_first
      ⟨PaymentState.FETCHING_BALANCES, none, [], none, none, none⟩
      ⟨("tool"), ("1"), ("USD"), 1, ("0xr"), [⟨("T"), ("T"), none, 2, true⟩]⟩
      1 (fun _ => some 1) (by decide)⟩

/-- C9's effect model, evaluated: the Retry click in the ERROR state only
sets the state back to FETCHING_TOOL and issues no request, and the
re-render it causes runs no tool fetch either, because the effect that
calls loadTool has dependency list toolId, which is unchanged; the fetch
runs on mount only. -/
theorem retry_sets_state_without_refetch :
    retryClick ⟨PaymentState.ERROR, none, [], none,
        some ("Failed to fetch payment tool: Not Found"), none⟩ =
      (⟨PaymentState.FETCHING_TOOL, none, [], none,
        some ("Failed to fetch payment tool: Not Found"), none⟩,
       ([] : List Request)) ∧
    toolFetchEffect (some ("tool_1")) ("tool_1") = [] ∧
    toolFetchEffect none ("tool_1") = [Request.fetchTool ("tool_1")] := by
  refine ⟨rfl, by decide, by decide⟩

end DCP

